import Mathlib

/-!
Shallow embedding of the `daily-checkin` Clarity contracts
(`src/contracts/daily-checkin.clar`: the original contract, called V1 below,
and the V2 migration contract that follows it in the same file).

Modelling conventions:
* Clarity `principal` values are modelled as `Nat` (only decidable equality
  of principals is ever used by the contract).
* Clarity `uint` is modelled as `Nat`.  The only subtraction the contract
  performs is `(- block-height last)` with `last` a previously recorded
  block height, so truncated `Nat` subtraction agrees with Clarity `uint`
  subtraction on all reachable inputs.
* A Clarity `define-map principal uint` is an association list
  `List (Nat × Nat)`; `map-get?` is `mapGet`, `map-set` is `mapSet`
  (replace the binding if the key is present, append otherwise).
* `stx-transfer?` is modelled by a boolean oracle `feeOk` supplied by the
  caller of the operation: `true` means the transfer succeeds, `false`
  that it fails (insufficient balance etc.).  STX balances themselves are
  outside the model; no claim refers to them.  A failed transfer makes the
  public function return an error, which in the Clarity host rolls the
  transaction back, so the model returns the unchanged state.
* Public functions return a Clarity-style response; error codes u100-u103
  are modelled by the inductive `CheckinError` (`feeTransferFailed` stands
  for the error propagated out of a failed `stx-transfer?`).
-/

namespace DailyCheckin

/-- One Clarity `define-map principal uint`, as an association list. -/
abbrev PMap := List (Nat × Nat)

/-- Clarity `map-get?`: first binding of the key, if any. -/
def mapGet : PMap → Nat → Option Nat
  | [], _ => none
  | (k, v) :: t, key => if k = key then some v else mapGet t key

/-- Clarity `map-set`: replace the first binding of the key, or append one. -/
def mapSet : PMap → Nat → Nat → PMap
  | [], key, val => [(key, val)]
  | (k, v) :: t, key, val =>
      if k = key then (key, val) :: t else (k, v) :: mapSet t key val

/-- Sum of all values stored in a map. -/
def sumVals (m : PMap) : Nat := (m.map Prod.snd).sum

/-- Clarity constant `BLOCKS-PER-DAY` (`u144`). -/
def BLOCKS_PER_DAY : Nat := 144

/-- Clarity constant `CHECKIN-FEE` (`u1000` microSTX). -/
def CHECKIN_FEE : Nat := 1000

/-- Error kinds of the contract: `ERR-ALREADY-CHECKED-IN` (u100),
`ERR-NOT-AUTHORIZED` (u101), `ERR-INVALID-AMOUNT` (u102), and the error a
failed `stx-transfer?` propagates through `try!`. -/
inductive CheckinError where
  | alreadyCheckedIn
  | notAuthorized
  | invalidAmount
  | feeTransferFailed
deriving DecidableEq, Repr

/-- Clarity `(response α CheckinError)`. -/
inductive Response (α : Type) where
  | ok (value : α)
  | err (code : CheckinError)
deriving DecidableEq, Repr

namespace V1

/-- Tuple returned by a successful V1 `check-in` / `check-in-internal`. -/
structure Receipt where
  earned : Nat
  totalPoints : Nat
  streak : Nat
  totalCheckins : Nat
deriving DecidableEq, Repr

/-- Full state of the V1 contract: the four data maps, the four data vars,
and the deploy-time constant `CONTRACT-OWNER`. -/
structure State where
  owner : Nat
  pointsPerCheckin : Nat
  streakBonus : Nat
  totalCheckins : Nat
  uniqueUsers : Nat
  lastCheckin : PMap
  userPoints : PMap
  userStreak : PMap
  userTotalCheckins : PMap
deriving DecidableEq, Repr

/-- State right after deployment by `owner`: data vars at their declared
initial values (`u100`, `u10`, `u0`, `u0`) and empty maps. -/
def initState (owner : Nat) : State :=
  { owner := owner
    pointsPerCheckin := 100
    streakBonus := 10
    totalCheckins := 0
    uniqueUsers := 0
    lastCheckin := []
    userPoints := []
    userStreak := []
    userTotalCheckins := [] }

/-- Read-only `get-user-points` (`default-to u0`). -/
def getUserPoints (s : State) (user : Nat) : Nat :=
  (mapGet s.userPoints user).getD 0

/-- Read-only `get-user-streak` (`default-to u0`). -/
def getUserStreak (s : State) (user : Nat) : Nat :=
  (mapGet s.userStreak user).getD 0

/-- Read-only `get-last-checkin` (`default-to u0`). -/
def getLastCheckin (s : State) (user : Nat) : Nat :=
  (mapGet s.lastCheckin user).getD 0

/-- Read-only `get-user-total-checkins` (`default-to u0`). -/
def getUserTotalCheckins (s : State) (user : Nat) : Nat :=
  (mapGet s.userTotalCheckins user).getD 0

/-- Read-only `can-checkin`: new user, or at least `BLOCKS-PER-DAY` blocks
since the last check-in.  `bh` is the current `block-height`. -/
def canCheckin (s : State) (user bh : Nat) : Bool :=
  decide (getLastCheckin s user = 0 ∨
          BLOCKS_PER_DAY ≤ bh - getLastCheckin s user)

/-- Shared commit block of `check-in` and `check-in-internal` (the source
repeats these lines verbatim in both functions): compute the new streak and
earned points, write the four user map entries, bump `total-checkins`, and
bump `unique-users` for a new user.  Returns the receipt and new state. -/
def checkinCommit (s : State) (user bh : Nat) : Receipt × State :=
  let lastBlock := getLastCheckin s user
  let currentPoints := getUserPoints s user
  let currentStreak := getUserStreak s user
  let currentUserCheckins := getUserTotalCheckins s user
  let isNewUser := lastBlock = 0
  let newStreak :=
    if ¬ isNewUser ∧ bh - lastBlock < BLOCKS_PER_DAY * 2
    then currentStreak + 1 else 1
  let streakPoints := newStreak * s.streakBonus
  let earnedPoints := s.pointsPerCheckin + streakPoints
  (⟨earnedPoints, currentPoints + earnedPoints, newStreak,
    currentUserCheckins + 1⟩,
   { s with
       lastCheckin := mapSet s.lastCheckin user bh
       userPoints := mapSet s.userPoints user (currentPoints + earnedPoints)
       userStreak := mapSet s.userStreak user newStreak
       userTotalCheckins :=
         mapSet s.userTotalCheckins user (currentUserCheckins + 1)
       totalCheckins := s.totalCheckins + 1
       uniqueUsers :=
         if isNewUser then s.uniqueUsers + 1 else s.uniqueUsers })

/-- Public `check-in` for caller `user` at `block-height` `bh`.  `feeOk` is
the outcome of `(stx-transfer? CHECKIN-FEE user CONTRACT-OWNER)`.  Returns
the response, the resulting contract state, and whether the fee transfer
was attempted. -/
def checkIn (s : State) (user bh : Nat) (feeOk : Bool) :
    Response Receipt × State × Bool :=
  if ¬ canCheckin s user bh then (.err .alreadyCheckedIn, s, false)
  else if feeOk = false then (.err .feeTransferFailed, s, true)
  else (.ok (checkinCommit s user bh).1, (checkinCommit s user bh).2, true)

/-- Private `check-in-internal`: eligibility check plus commit, with no fee
transfer of its own. -/
def checkInInternal (s : State) (user bh : Nat) :
    Response Receipt × State :=
  if ¬ canCheckin s user bh then (.err .alreadyCheckedIn, s)
  else (.ok (checkinCommit s user bh).1, (checkinCommit s user bh).2)

/-- Clarity `map check-in-internal users`: sequential left-to-right
application, each call seeing the state left by the previous one. -/
def runInternal (bh : Nat) : State → List Nat → List (Response Receipt) × State
  | s, [] => ([], s)
  | s, u :: t =>
      ((checkInInternal s u bh).1 ::
         (runInternal bh (checkInInternal s u bh).2 t).1,
       (runInternal bh (checkInInternal s u bh).2 t).2)

/-- Public `bulk-check-in`: reject an empty list with `ERR-INVALID-AMOUNT`,
collect the aggregate fee from the caller (`feeOk` is the `stx-transfer?`
outcome), then wrap the per-user results in `ok`. -/
def bulkCheckIn (s : State) (users : List Nat) (bh : Nat) (feeOk : Bool) :
    Response (List (Response Receipt)) × State :=
  if users.length = 0 then (.err .invalidAmount, s)
  else if feeOk = false then (.err .feeTransferFailed, s)
  else (.ok (runInternal bh s users).1, (runInternal bh s users).2)

/-- Admin `set-points-per-checkin`. -/
def setPointsPerCheckin (s : State) (caller newPoints : Nat) :
    Response Nat × State :=
  if ¬ caller = s.owner then (.err .notAuthorized, s)
  else if ¬ 0 < newPoints then (.err .invalidAmount, s)
  else (.ok newPoints, { s with pointsPerCheckin := newPoints })

/-- Admin `set-streak-bonus` (no positivity check in the source). -/
def setStreakBonus (s : State) (caller newBonus : Nat) :
    Response Nat × State :=
  if ¬ caller = s.owner then (.err .notAuthorized, s)
  else (.ok newBonus, { s with streakBonus := newBonus })

end V1

namespace V2

/-- Tuple returned by a successful V2 `check-in` (adds `fee-paid`). -/
structure Receipt where
  earned : Nat
  totalPoints : Nat
  streak : Nat
  totalCheckins : Nat
  feePaid : Nat
deriving DecidableEq, Repr

/-- Full state of the V2 migration contract: five data maps, six data vars,
and the deploy-time constant `CONTRACT-OWNER`. -/
structure State where
  owner : Nat
  pointsPerCheckin : Nat
  streakBonus : Nat
  totalCheckins : Nat
  uniqueUsers : Nat
  contractDeployer : Nat
  feeAmount : Nat
  lastCheckin : PMap
  userPoints : PMap
  userStreak : PMap
  userTotalCheckins : PMap
  userFeePaid : PMap
deriving DecidableEq, Repr

/-- State right after deployment: declared initial values (`u100`, `u10`,
`u0`, `u0`, `CONTRACT-DEPLOYER`, `CHECKIN-FEE`) and empty maps. -/
def initState (owner deployer : Nat) : State :=
  { owner := owner
    pointsPerCheckin := 100
    streakBonus := 10
    totalCheckins := 0
    uniqueUsers := 0
    contractDeployer := deployer
    feeAmount := CHECKIN_FEE
    lastCheckin := []
    userPoints := []
    userStreak := []
    userTotalCheckins := []
    userFeePaid := [] }

/-- Read-only `get-user-points` (`default-to u0`). -/
def getUserPoints (s : State) (user : Nat) : Nat :=
  (mapGet s.userPoints user).getD 0

/-- Read-only `get-user-streak` (`default-to u0`). -/
def getUserStreak (s : State) (user : Nat) : Nat :=
  (mapGet s.userStreak user).getD 0

/-- Read-only `get-last-checkin` (`default-to u0`). -/
def getLastCheckin (s : State) (user : Nat) : Nat :=
  (mapGet s.lastCheckin user).getD 0

/-- Read-only `get-user-total-checkins` (`default-to u0`). -/
def getUserTotalCheckins (s : State) (user : Nat) : Nat :=
  (mapGet s.userTotalCheckins user).getD 0

/-- Read-only `get-user-fee-paid` (`default-to u0`). -/
def getUserFeePaid (s : State) (user : Nat) : Nat :=
  (mapGet s.userFeePaid user).getD 0

/-- Read-only `can-checkin` (same rule as V1). -/
def canCheckin (s : State) (user bh : Nat) : Bool :=
  decide (getLastCheckin s user = 0 ∨
          BLOCKS_PER_DAY ≤ bh - getLastCheckin s user)

/-- Public V2 `check-in` for caller `user` at `block-height` `bh`.  `feeOk`
is the outcome of `(stx-transfer? fee user (var-get contract-deployer))`.
Returns the response, the resulting state, and whether the fee transfer was
attempted. -/
def checkIn (s : State) (user bh : Nat) (feeOk : Bool) :
    Response Receipt × State × Bool :=
  let lastBlock := getLastCheckin s user
  let currentPoints := getUserPoints s user
  let currentStreak := getUserStreak s user
  let currentUserCheckins := getUserTotalCheckins s user
  let currentFeePaid := getUserFeePaid s user
  let isNewUser := lastBlock = 0
  let fee := s.feeAmount
  if ¬ canCheckin s user bh then (.err .alreadyCheckedIn, s, false)
  else if feeOk = false then (.err .feeTransferFailed, s, true)
  else
    let newStreak :=
      if ¬ isNewUser ∧ bh - lastBlock < BLOCKS_PER_DAY * 2
      then currentStreak + 1 else 1
    let streakPoints := newStreak * s.streakBonus
    let earnedPoints := s.pointsPerCheckin + streakPoints
    (.ok ⟨earnedPoints, currentPoints + earnedPoints, newStreak,
          currentUserCheckins + 1, fee⟩,
     { s with
         lastCheckin := mapSet s.lastCheckin user bh
         userPoints := mapSet s.userPoints user (currentPoints + earnedPoints)
         userStreak := mapSet s.userStreak user newStreak
         userTotalCheckins :=
           mapSet s.userTotalCheckins user (currentUserCheckins + 1)
         userFeePaid := mapSet s.userFeePaid user (currentFeePaid + fee)
         totalCheckins := s.totalCheckins + 1
         uniqueUsers :=
           if isNewUser then s.uniqueUsers + 1 else s.uniqueUsers },
     true)

/-- Admin V2 `set-points-per-checkin`. -/
def setPointsPerCheckin (s : State) (caller newPoints : Nat) :
    Response Nat × State :=
  if ¬ caller = s.owner then (.err .notAuthorized, s)
  else if ¬ 0 < newPoints then (.err .invalidAmount, s)
  else (.ok newPoints, { s with pointsPerCheckin := newPoints })

/-- Admin V2 `set-streak-bonus` (no positivity check in the source). -/
def setStreakBonus (s : State) (caller newBonus : Nat) :
    Response Nat × State :=
  if ¬ caller = s.owner then (.err .notAuthorized, s)
  else (.ok newBonus, { s with streakBonus := newBonus })

/-- Admin V2 `set-fee-amount`. -/
def setFeeAmount (s : State) (caller newFee : Nat) :
    Response Nat × State :=
  if ¬ caller = s.owner then (.err .notAuthorized, s)
  else if ¬ 0 < newFee then (.err .invalidAmount, s)
  else (.ok newFee, { s with feeAmount := newFee })

end V2

/-- One top-level call against the V1 contract: a single `check-in`, a
`bulk-check-in`, or one of the two admin setters. -/
inductive Op where
  | checkin (user bh : Nat) (feeOk : Bool)
  | bulk (users : List Nat) (bh : Nat) (feeOk : Bool)
  | setPoints (caller value : Nat)
  | setBonus (caller value : Nat)
deriving DecidableEq, Repr

/-- Block height at which an operation executes (1 for the admin setters,
whose behaviour does not depend on it). -/
def opTick : Op → Nat
  | .checkin _ bh _ => bh
  | .bulk _ bh _ => bh
  | .setPoints _ _ => 1
  | .setBonus _ _ => 1

/-- State left behind by one top-level call (responses discarded). -/
def applyOp (s : V1.State) : Op → V1.State
  | .checkin u bh f => (V1.checkIn s u bh f).2.1
  | .bulk us bh f => (V1.bulkCheckIn s us bh f).2
  | .setPoints c v => (V1.setPointsPerCheckin s c v).2
  | .setBonus c v => (V1.setStreakBonus s c v).2

/-- Run a sequence of top-level calls from a starting state. -/
def runOps (s : V1.State) : List Op → V1.State
  | [] => s
  | op :: t => runOps (applyOp s op) t

/-- Ledger invariant tying the global statistics to the per-user map:
`total-checkins` is the sum of all per-user counters, `unique-users` is
the number of tracked users, every tracked user has at least one check-in,
a user is tracked exactly when its `last-checkin` is nonzero, and the user
keys are distinct. -/
def Inv (s : V1.State) : Prop :=
  s.totalCheckins = sumVals s.userTotalCheckins ∧
  s.uniqueUsers = s.userTotalCheckins.length ∧
  (∀ e ∈ s.userTotalCheckins, 1 ≤ e.2) ∧
  (∀ p, V1.getLastCheckin s p = 0 ↔ mapGet s.userTotalCheckins p = none) ∧
  (s.userTotalCheckins.map Prod.fst).Nodup

/-- Example operation sequence used to instantiate the aggregate
consistency theorem. -/
def demoOps : List Op :=
  [.checkin 1 5 true, .bulk [2, 3, 1] 300 true, .setPoints 0 7,
   .checkin 1 300 false, .setBonus 9 4]

/-! Basic lemmas about the association-list map operations. -/

theorem mapGet_mapSet_self (m : PMap) (k v : Nat) :
    mapGet (mapSet m k v) k = some v := by
  induction m with
  | nil => simp [mapSet, mapGet]
  | cons e t ih =>
      obtain ⟨a, b⟩ := e
      by_cases h : a = k <;> simp [mapSet, mapGet, h, ih]

theorem mapGet_mapSet_ne (m : PMap) (k v q : Nat) (h : q ≠ k) :
    mapGet (mapSet m k v) q = mapGet m q := by
  induction m with
  | nil => simp [mapSet, mapGet, Ne.symm h]
  | cons e t ih =>
      obtain ⟨a, b⟩ := e
      by_cases hk : a = k
      · subst hk
        simp [mapSet, mapGet, Ne.symm h]
      · simp only [mapSet, if_neg hk, mapGet]
        by_cases hq : a = q <;> simp [hq, ih]

theorem mem_of_mapGet_eq_some (m : PMap) (k v : Nat)
    (h : mapGet m k = some v) : (k, v) ∈ m := by
  induction m with
  | nil => simp [mapGet] at h
  | cons e t ih =>
      obtain ⟨a, b⟩ := e
      by_cases hk : a = k
      · subst hk
        simp [mapGet] at h
        simp [h]
      · simp only [mapGet, if_neg hk] at h
        exact List.mem_cons_of_mem _ (ih h)

theorem mem_mapSet (m : PMap) (k v : Nat) (e : Nat × Nat)
    (h : e ∈ mapSet m k v) : e = (k, v) ∨ e ∈ m := by
  induction m with
  | nil => simpa [mapSet] using h
  | cons p t ih =>
      obtain ⟨a, b⟩ := p
      by_cases hk : a = k
      · subst hk
        simp only [mapSet, if_pos rfl] at h
        rcases List.mem_cons.mp h with h1 | h1
        · exact Or.inl h1
        · exact Or.inr (List.mem_cons_of_mem _ h1)
      · simp only [mapSet, if_neg hk] at h
        rcases List.mem_cons.mp h with h1 | h1
        · exact Or.inr (by simp [h1])
        · rcases ih h1 with h2 | h2
          · exact Or.inl h2
          · exact Or.inr (List.mem_cons_of_mem _ h2)

theorem length_mapSet_some (m : PMap) (k v w : Nat)
    (h : mapGet m k = some w) : (mapSet m k v).length = m.length := by
  induction m with
  | nil => simp [mapGet] at h
  | cons e t ih =>
      obtain ⟨a, b⟩ := e
      by_cases hk : a = k
      · simp [mapSet, hk]
      · simp only [mapGet, if_neg hk] at h
        simp [mapSet, hk, ih h]

theorem length_mapSet_none (m : PMap) (k v : Nat)
    (h : mapGet m k = none) : (mapSet m k v).length = m.length + 1 := by
  induction m with
  | nil => simp [mapSet]
  | cons e t ih =>
      obtain ⟨a, b⟩ := e
      by_cases hk : a = k
      · simp [mapGet, hk] at h
      · simp only [mapGet, if_neg hk] at h
        simp [mapSet, hk, ih h]

theorem sumVals_mapSet_some (m : PMap) (k v w : Nat)
    (h : mapGet m k = some w) :
    sumVals (mapSet m k v) + w = sumVals m + v := by
  induction m with
  | nil => simp [mapGet] at h
  | cons e t ih =>
      obtain ⟨a, b⟩ := e
      by_cases hk : a = k
      · simp only [mapGet, if_pos hk, Option.some.injEq] at h
        subst h
        simp [mapSet, hk, sumVals]
        omega
      · simp only [mapGet, if_neg hk] at h
        have := ih h
        simp [mapSet, hk, sumVals] at this ⊢
        omega

theorem sumVals_mapSet_none (m : PMap) (k v : Nat)
    (h : mapGet m k = none) :
    sumVals (mapSet m k v) = sumVals m + v := by
  induction m with
  | nil => simp [mapSet, sumVals]
  | cons e t ih =>
      obtain ⟨a, b⟩ := e
      by_cases hk : a = k
      · simp [mapGet, hk] at h
      · simp only [mapGet, if_neg hk] at h
        have := ih h
        simp [mapSet, hk, sumVals] at this ⊢
        omega

theorem mapGet_eq_none_iff (m : PMap) (k : Nat) :
    mapGet m k = none ↔ k ∉ m.map Prod.fst := by
  induction m with
  | nil => simp [mapGet]
  | cons e t ih =>
      obtain ⟨a, b⟩ := e
      by_cases hk : a = k <;> simp [mapGet, hk, ih, Ne.symm]

theorem keys_mapSet (m : PMap) (k v : Nat) :
    (mapSet m k v).map Prod.fst =
      if mapGet m k = none then m.map Prod.fst ++ [k]
      else m.map Prod.fst := by
  induction m with
  | nil => simp [mapSet, mapGet]
  | cons e t ih =>
      obtain ⟨a, b⟩ := e
      by_cases hk : a = k
      · simp [mapSet, mapGet, hk]
      · simp only [mapSet, if_neg hk, mapGet, List.map_cons]
        rw [ih]
        by_cases hn : mapGet t k = none <;> simp [hn, hk]

theorem v1_checkin_eligible (s : V1.State) (u bh : Nat)
    (h : V1.canCheckin s u bh = true) :
    V1.checkIn s u bh true =
      (.ok (V1.checkinCommit s u bh).1, (V1.checkinCommit s u bh).2, true) := by
  simp [V1.checkIn, h]

theorem v1_internal_eligible (s : V1.State) (u bh : Nat)
    (h : V1.canCheckin s u bh = true) :
    V1.checkInInternal s u bh =
      (.ok (V1.checkinCommit s u bh).1, (V1.checkinCommit s u bh).2) := by
  simp [V1.checkInInternal, h]

theorem v1_internal_ineligible (s : V1.State) (u bh : Nat)
    (h : V1.canCheckin s u bh = false) :
    V1.checkInInternal s u bh = (.err .alreadyCheckedIn, s) := by
  simp [V1.checkInInternal, h]

theorem v1_commit_streak (s : V1.State) (u bh : Nat) :
    V1.getUserStreak (V1.checkinCommit s u bh).2 u =
      if ¬ V1.getLastCheckin s u = 0 ∧
           bh - V1.getLastCheckin s u < BLOCKS_PER_DAY * 2
      then V1.getUserStreak s u + 1 else 1 := by
  simp [V1.checkinCommit, V1.getUserStreak, mapGet_mapSet_self]

theorem v1_commit_lastCheckin (s : V1.State) (u bh : Nat) :
    V1.getLastCheckin (V1.checkinCommit s u bh).2 u = bh := by
  simp [V1.checkinCommit, V1.getLastCheckin, mapGet_mapSet_self]

theorem nodup_keys_mapSet (m : PMap) (k v : Nat)
    (h : (m.map Prod.fst).Nodup) :
    ((mapSet m k v).map Prod.fst).Nodup := by
  rw [keys_mapSet]
  by_cases hn : mapGet m k = none
  · simp only [if_pos hn]
    have hk : k ∉ m.map Prod.fst := (mapGet_eq_none_iff m k).mp hn
    simpa [List.nodup_append] using And.intro h hk
  · simpa [if_neg hn] using h

theorem v1_can_of_gap (s : V1.State) (u bh : Nat)
    (h : BLOCKS_PER_DAY ≤ bh - V1.getLastCheckin s u) :
    V1.canCheckin s u bh = true := by
  simp only [V1.canCheckin, decide_eq_true_eq]
  exact Or.inr h

theorem v1_can_of_new (s : V1.State) (u bh : Nat)
    (h : V1.getLastCheckin s u = 0) :
    V1.canCheckin s u bh = true := by
  simp only [V1.canCheckin, decide_eq_true_eq]
  exact Or.inl h

theorem v2_can_of_gap (s : V2.State) (u bh : Nat)
    (h : BLOCKS_PER_DAY ≤ bh - V2.getLastCheckin s u) :
    V2.canCheckin s u bh = true := by
  simp only [V2.canCheckin, decide_eq_true_eq]
  exact Or.inr h

theorem v2_can_of_new (s : V2.State) (u bh : Nat)
    (h : V2.getLastCheckin s u = 0) :
    V2.canCheckin s u bh = true := by
  simp only [V2.canCheckin, decide_eq_true_eq]
  exact Or.inl h

theorem v2_checkin_ok (s : V2.State) (u bh : Nat)
    (h : V2.canCheckin s u bh = true) :
    ∃ r, (V2.checkIn s u bh true).1 = Response.ok r := by
  simp [V2.checkIn, h]

theorem v2_checkin_streak (s : V2.State) (u bh : Nat)
    (h : V2.canCheckin s u bh = true) :
    V2.getUserStreak (V2.checkIn s u bh true).2.1 u =
      if ¬ V2.getLastCheckin s u = 0 ∧
           bh - V2.getLastCheckin s u < BLOCKS_PER_DAY * 2
      then V2.getUserStreak s u + 1 else 1 := by
  simp [V2.checkIn, h, V2.getUserStreak, mapGet_mapSet_self]

/-- C1: for an existing eligible record, a successful `check-in` (V1 and
V2) sets the streak to `currentStreak + 1` exactly when the gap since the
last check-in is `< 2 * BLOCKS-PER-DAY`, and to 1 otherwise; a gap of
exactly `2 * BLOCKS-PER-DAY` resets to 1, a gap of
`2 * BLOCKS-PER-DAY - 1` continues the streak, and a first-ever check-in
yields streak 1. -/
theorem claim_C1_streak_rule :
    (∀ (s : V1.State) (u bh : Nat),
        V1.getLastCheckin s u ≠ 0 →
        BLOCKS_PER_DAY ≤ bh - V1.getLastCheckin s u →
        (∃ r, (V1.checkIn s u bh true).1 = Response.ok r) ∧
        V1.getUserStreak (V1.checkIn s u bh true).2.1 u =
          (if bh - V1.getLastCheckin s u < BLOCKS_PER_DAY * 2
           then V1.getUserStreak s u + 1 else 1)) ∧
    (∀ (s : V1.State) (u bh : Nat),
        V1.getLastCheckin s u ≠ 0 →
        bh - V1.getLastCheckin s u = BLOCKS_PER_DAY * 2 →
        V1.getUserStreak (V1.checkIn s u bh true).2.1 u = 1) ∧
    (∀ (s : V1.State) (u bh : Nat),
        V1.getLastCheckin s u ≠ 0 →
        bh - V1.getLastCheckin s u = BLOCKS_PER_DAY * 2 - 1 →
        V1.getUserStreak (V1.checkIn s u bh true).2.1 u =
          V1.getUserStreak s u + 1) ∧
    (∀ (s : V1.State) (u bh : Nat),
        V1.getLastCheckin s u = 0 →
        V1.getUserStreak (V1.checkIn s u bh true).2.1 u = 1) ∧
    (∀ (s : V2.State) (u bh : Nat),
        V2.getLastCheckin s u ≠ 0 →
        BLOCKS_PER_DAY ≤ bh - V2.getLastCheckin s u →
        (∃ r, (V2.checkIn s u bh true).1 = Response.ok r) ∧
        V2.getUserStreak (V2.checkIn s u bh true).2.1 u =
          (if bh - V2.getLastCheckin s u < BLOCKS_PER_DAY * 2
           then V2.getUserStreak s u + 1 else 1)) ∧
    (∀ (s : V2.State) (u bh : Nat),
        V2.getLastCheckin s u ≠ 0 →
        bh - V2.getLastCheckin s u = BLOCKS_PER_DAY * 2 →
        V2.getUserStreak (V2.checkIn s u bh true).2.1 u = 1) ∧
    (∀ (s : V2.State) (u bh : Nat),
        V2.getLastCheckin s u ≠ 0 →
        bh - V2.getLastCheckin s u = BLOCKS_PER_DAY * 2 - 1 →
        V2.getUserStreak (V2.checkIn s u bh true).2.1 u =
          V2.getUserStreak s u + 1) ∧
    (∀ (s : V2.State) (u bh : Nat),
        V2.getLastCheckin s u = 0 →
        V2.getUserStreak (V2.checkIn s u bh true).2.1 u = 1) := by
  refine ⟨?_, ?_, ?_, ?_, ?_, ?_, ?_, ?_⟩
  · intro s u bh h0 h1
    have hcan := v1_can_of_gap s u bh h1
    rw [v1_checkin_eligible s u bh hcan]
    refine ⟨⟨_, rfl⟩, ?_⟩
    simp [v1_commit_streak, h0]
  · intro s u bh h0 h1
    have hcan := v1_can_of_gap s u bh (by omega)
    rw [v1_checkin_eligible s u bh hcan]
    simp [v1_commit_streak, h0, h1]
  · intro s u bh h0 h1
    have hcan := v1_can_of_gap s u bh (by rw [h1]; decide)
    rw [v1_checkin_eligible s u bh hcan]
    simp [v1_commit_streak, h0, h1, BLOCKS_PER_DAY]
  · intro s u bh h0
    have hcan := v1_can_of_new s u bh h0
    rw [v1_checkin_eligible s u bh hcan]
    simp [v1_commit_streak, h0]
  · intro s u bh h0 h1
    have hcan := v2_can_of_gap s u bh h1
    refine ⟨v2_checkin_ok s u bh hcan, ?_⟩
    rw [v2_checkin_streak s u bh hcan]
    simp [h0]
  · intro s u bh h0 h1
    have hcan := v2_can_of_gap s u bh (by omega)
    rw [v2_checkin_streak s u bh hcan]
    simp [h0, h1]
  · intro s u bh h0 h1
    have hcan := v2_can_of_gap s u bh (by rw [h1]; decide)
    rw [v2_checkin_streak s u bh hcan]
    simp [h0, h1, BLOCKS_PER_DAY]
  · intro s u bh h0
    have hcan := v2_can_of_new s u bh h0
    rw [v2_checkin_streak s u bh hcan]
    simp [h0]

/-- Witness for C1 at concrete inputs: an existing record with streak 1
checking in after a gap of 144 continues to streak 2, and a fresh user
gets streak 1. -/
theorem claim_C1_streak_rule_witness :
    V1.getUserStreak
      (V1.checkIn (V1.checkIn (V1.initState 0) 1 100 true).2.1
        1 244 true).2.1 1 =
      (if 244 - V1.getLastCheckin
            (V1.checkIn (V1.initState 0) 1 100 true).2.1 1 <
          BLOCKS_PER_DAY * 2
       then V1.getUserStreak
              (V1.checkIn (V1.initState 0) 1 100 true).2.1 1 + 1
       else 1) ∧
    V2.getUserStreak (V2.checkIn (V2.initState 0 7) 1 100 true).2.1 1 = 1 := by
  constructor
  · exact (claim_C1_streak_rule.1 (V1.checkIn (V1.initState 0) 1 100 true).2.1
      1 244 (by decide) (by decide)).2
  · exact claim_C1_streak_rule.2.2.2.2.2.2.2 (V2.initState 0 7) 1 100 (by decide)

theorem v1_commit_receipt (s : V1.State) (u bh : Nat) :
    (V1.checkinCommit s u bh).1.earned =
      s.pointsPerCheckin + (V1.checkinCommit s u bh).1.streak * s.streakBonus ∧
    (V1.checkinCommit s u bh).1.totalPoints =
      V1.getUserPoints s u + (V1.checkinCommit s u bh).1.earned ∧
    V1.getUserPoints (V1.checkinCommit s u bh).2 u =
      V1.getUserPoints s u + (V1.checkinCommit s u bh).1.earned := by
  simp [V1.checkinCommit, V1.getUserPoints, mapGet_mapSet_self]

/-- C2: every successful check-in (single V1, batch-internal V1, or V2)
earns exactly `pointsPerCheckin + newStreak * streakBonus` — no cap on the
streak bonus — and adds exactly that amount to the caller's stored total
points, which the receipt reports. -/
theorem claim_C2_points_formula :
    (∀ (s : V1.State) (u bh : Nat) (feeOk fa : Bool) (r : V1.Receipt)
        (s1 : V1.State),
        V1.checkIn s u bh feeOk = (.ok r, s1, fa) →
        r.earned = s.pointsPerCheckin + r.streak * s.streakBonus ∧
        r.totalPoints = V1.getUserPoints s u + r.earned ∧
        V1.getUserPoints s1 u = V1.getUserPoints s u + r.earned) ∧
    (∀ (s : V1.State) (u bh : Nat) (r : V1.Receipt) (s1 : V1.State),
        V1.checkInInternal s u bh = (.ok r, s1) →
        r.earned = s.pointsPerCheckin + r.streak * s.streakBonus ∧
        r.totalPoints = V1.getUserPoints s u + r.earned ∧
        V1.getUserPoints s1 u = V1.getUserPoints s u + r.earned) ∧
    (∀ (s : V2.State) (u bh : Nat) (feeOk fa : Bool) (r : V2.Receipt)
        (s1 : V2.State),
        V2.checkIn s u bh feeOk = (.ok r, s1, fa) →
        r.earned = s.pointsPerCheckin + r.streak * s.streakBonus ∧
        r.totalPoints = V2.getUserPoints s u + r.earned ∧
        V2.getUserPoints s1 u = V2.getUserPoints s u + r.earned) := by
  refine ⟨?_, ?_, ?_⟩
  · intro s u bh feeOk fa r s1 h
    by_cases hc : V1.canCheckin s u bh = true
    · by_cases hf : feeOk = false
      · simp [V1.checkIn, hc, hf] at h
      · simp [V1.checkIn, hc, hf] at h
        obtain ⟨h1, h2, -⟩ := h
        subst h1
        subst h2
        exact v1_commit_receipt s u bh
    · simp [V1.checkIn, hc] at h
  · intro s u bh r s1 h
    by_cases hc : V1.canCheckin s u bh = true
    · simp [V1.checkInInternal, hc] at h
      obtain ⟨h1, h2⟩ := h
      subst h1
      subst h2
      exact v1_commit_receipt s u bh
    · simp [V1.checkInInternal, hc] at h
  · intro s u bh feeOk fa r s1 h
    by_cases hc : V2.canCheckin s u bh = true
    · by_cases hf : feeOk = false
      · simp [V2.checkIn, hc, hf] at h
      · simp [V2.checkIn, hc, hf] at h
        obtain ⟨h1, h2, -⟩ := h
        subst h1
        subst h2
        simp [V2.getUserPoints, mapGet_mapSet_self]
    · simp [V2.checkIn, hc] at h

/-- Witness for C2 at a concrete input: the first check-in of principal 1
at block 100 earns `100 + 1 * 10 = 110` and raises its points to 110. -/
theorem claim_C2_points_formula_witness :
    V1.Receipt.earned ⟨110, 110, 1, 1⟩ =
      (V1.initState 0).pointsPerCheckin +
        V1.Receipt.streak ⟨110, 110, 1, 1⟩ * (V1.initState 0).streakBonus ∧
    V1.Receipt.totalPoints ⟨110, 110, 1, 1⟩ =
      V1.getUserPoints (V1.initState 0) 1 +
        V1.Receipt.earned ⟨110, 110, 1, 1⟩ ∧
    V1.getUserPoints (V1.checkIn (V1.initState 0) 1 100 true).2.1 1 =
      V1.getUserPoints (V1.initState 0) 1 +
        V1.Receipt.earned ⟨110, 110, 1, 1⟩ :=
  claim_C2_points_formula.1 (V1.initState 0) 1 100 true true
    ⟨110, 110, 1, 1⟩ (V1.checkIn (V1.initState 0) 1 100 true).2.1
    (by decide)

/-- C3: `check-in` fails with AlreadyCheckedIn exactly when the caller has
a record (`last-checkin` not 0) and fewer than `BLOCKS-PER-DAY` blocks
have passed; on that failure the state is unchanged and the fee transfer
is not attempted. -/
theorem claim_C3_eligibility_gate :
    ∀ (s : V1.State) (u bh : Nat) (feeOk : Bool),
      ((V1.checkIn s u bh feeOk).1 = Response.err .alreadyCheckedIn ↔
        (V1.getLastCheckin s u ≠ 0 ∧
         bh - V1.getLastCheckin s u < BLOCKS_PER_DAY)) ∧
      ((V1.checkIn s u bh feeOk).1 = Response.err .alreadyCheckedIn →
        (V1.checkIn s u bh feeOk).2.1 = s ∧
        (V1.checkIn s u bh feeOk).2.2 = false) := by
  intro s u bh feeOk
  by_cases hc : V1.canCheckin s u bh = true
  · have hdis : V1.getLastCheckin s u = 0 ∨
        BLOCKS_PER_DAY ≤ bh - V1.getLastCheckin s u := by
      simpa [V1.canCheckin, decide_eq_true_eq] using hc
    constructor
    · constructor
      · intro habs
        by_cases hf : feeOk = false <;> simp [V1.checkIn, hc, hf] at habs
      · rintro ⟨h1, h2⟩
        exact absurd hdis (by omega)
    · intro habs
      by_cases hf : feeOk = false <;> simp [V1.checkIn, hc, hf] at habs
  · have hc2 : ¬ (V1.getLastCheckin s u = 0 ∨
        BLOCKS_PER_DAY ≤ bh - V1.getLastCheckin s u) := by
      simpa [V1.canCheckin, decide_eq_true_eq] using hc
    have hrun : V1.checkIn s u bh feeOk = (.err .alreadyCheckedIn, s, false) := by
      simp [V1.checkIn, hc]
    rw [hrun]
    exact ⟨iff_of_true rfl (by omega), fun _ => ⟨rfl, rfl⟩⟩

/-- Witness for C3 at a concrete input: a user who checked in at block 100
is rejected at block 150 (gap 50 < 144) with no state change and no fee
attempt, and the iff instance holds there. -/
theorem claim_C3_eligibility_gate_witness :
    ((V1.checkIn (V1.checkIn (V1.initState 0) 1 100 true).2.1
        1 150 true).1 = Response.err .alreadyCheckedIn ↔
      (V1.getLastCheckin (V1.checkIn (V1.initState 0) 1 100 true).2.1 1 ≠ 0 ∧
       150 - V1.getLastCheckin (V1.checkIn (V1.initState 0) 1 100 true).2.1 1 <
         BLOCKS_PER_DAY)) ∧
    ((V1.checkIn (V1.checkIn (V1.initState 0) 1 100 true).2.1
        1 150 true).1 = Response.err .alreadyCheckedIn →
      (V1.checkIn (V1.checkIn (V1.initState 0) 1 100 true).2.1
        1 150 true).2.1 = (V1.checkIn (V1.initState 0) 1 100 true).2.1 ∧
      (V1.checkIn (V1.checkIn (V1.initState 0) 1 100 true).2.1
        1 150 true).2.2 = false) :=
  claim_C3_eligibility_gate (V1.checkIn (V1.initState 0) 1 100 true).2.1
    1 150 true

/-- C6: for an eligible caller whose fee transfer fails, `check-in` (V1
and V2) fails with the fee-transfer error and leaves the state unchanged;
and in every call the fee transfer is attempted exactly when the
eligibility check passes (so never before it, and never after a failed
one). -/
theorem claim_C6_fee_failure :
    (∀ (s : V1.State) (u bh : Nat),
        V1.canCheckin s u bh = true →
        (V1.checkIn s u bh false).1 = Response.err .feeTransferFailed ∧
        (V1.checkIn s u bh false).2.1 = s) ∧
    (∀ (s : V1.State) (u bh : Nat) (feeOk : Bool),
        (V1.checkIn s u bh feeOk).2.2 = V1.canCheckin s u bh) ∧
    (∀ (s : V2.State) (u bh : Nat),
        V2.canCheckin s u bh = true →
        (V2.checkIn s u bh false).1 = Response.err .feeTransferFailed ∧
        (V2.checkIn s u bh false).2.1 = s) ∧
    (∀ (s : V2.State) (u bh : Nat) (feeOk : Bool),
        (V2.checkIn s u bh feeOk).2.2 = V2.canCheckin s u bh) := by
  refine ⟨?_, ?_, ?_, ?_⟩
  · intro s u bh hc
    simp [V1.checkIn, hc]
  · intro s u bh feeOk
    by_cases hc : V1.canCheckin s u bh = true
    · by_cases hf : feeOk = false <;> simp [V1.checkIn, hc, hf]
    · simp [V1.checkIn, eq_false_of_ne_true hc]
  · intro s u bh hc
    simp [V2.checkIn, hc]
  · intro s u bh feeOk
    by_cases hc : V2.canCheckin s u bh = true
    · by_cases hf : feeOk = false <;> simp [V2.checkIn, hc, hf]
    · simp [V2.checkIn, eq_false_of_ne_true hc]

/-- Witness for C6 at a concrete input: a fresh, eligible user whose fee
transfer fails gets the fee-transfer error, an unchanged state, and an
attempted transfer; the attempted-iff-eligible equation holds there. -/
theorem claim_C6_fee_failure_witness :
    ((V1.checkIn (V1.initState 0) 1 100 false).1 =
      Response.err .feeTransferFailed ∧
     (V1.checkIn (V1.initState 0) 1 100 false).2.1 = V1.initState 0) ∧
    (V1.checkIn (V1.initState 0) 1 100 false).2.2 =
      V1.canCheckin (V1.initState 0) 1 100 ∧
    ((V2.checkIn (V2.initState 0 7) 1 100 false).1 =
      Response.err .feeTransferFailed ∧
     (V2.checkIn (V2.initState 0 7) 1 100 false).2.1 = V2.initState 0 7) :=
  ⟨claim_C6_fee_failure.1 (V1.initState 0) 1 100 (by decide),
   claim_C6_fee_failure.2.1 (V1.initState 0) 1 100 false,
   claim_C6_fee_failure.2.2.1 (V2.initState 0 7) 1 100 (by decide)⟩

/-- C5: the spec scenario is refuted at its very first step.  With the
default configuration (windowLength 144, pointsPerCheckin 100,
streakBonus 10), a first-ever `check-in` at block 100 earns
`100 + 1 * 10 = 110` points, not the `{earned:100, totalPoints:100}` the
claim states. -/
theorem claim_C5_counterexample :
    (V1.checkIn (V1.initState 0) 1 100 true).1 ≠
      Response.ok ⟨100, 100, 1, 1⟩ ∧
    (V1.checkIn (V1.initState 0) 1 100 true).1 =
      Response.ok ⟨110, 110, 1, 1⟩ := by
  decide

/-- C5 (amended): with windowLength=144, pointsPerCheckin=100,
streakBonus=10 and a fresh user, `checkIn(U,100)` returns
`{earned:110, totalPoints:110, streak:1, totalCheckins:1}`; a second
`checkIn(U,100)` fails with AlreadyCheckedIn; `checkIn(U,244)` returns
`{earned:120, totalPoints:230, streak:2, totalCheckins:2}`; and
`checkIn(U,532)` returns `{earned:110, totalPoints:340, streak:1,
totalCheckins:3}` (streak reset, since the gap 288 is not < 288). -/
theorem claim_C5_scenario :
    (V1.checkIn (V1.initState 0) 1 100 true).1 =
      Response.ok ⟨110, 110, 1, 1⟩ ∧
    (V1.checkIn (V1.checkIn (V1.initState 0) 1 100 true).2.1
        1 100 true).1 = Response.err .alreadyCheckedIn ∧
    (V1.checkIn (V1.checkIn (V1.initState 0) 1 100 true).2.1
        1 244 true).1 = Response.ok ⟨120, 230, 2, 2⟩ ∧
    (V1.checkIn (V1.checkIn (V1.checkIn (V1.initState 0) 1 100 true).2.1
        1 244 true).2.1 1 532 true).1 = Response.ok ⟨110, 340, 1, 3⟩ := by
  decide

/-- C4: batch atomicity is refuted on a concrete run.  Principal 1 checks
in at block 10; at block 20, `bulk-check-in [2, 1]` does not return the
AlreadyCheckedIn error: it returns `ok` with principal 2's receipt and an
embedded error for principal 1, and principal 2's state change (its first
check-in) persists after the call. -/
theorem claim_C4_counterexample :
    (V1.bulkCheckIn (V1.checkIn (V1.initState 0) 1 10 true).2.1
        [2, 1] 20 true).1 ≠ Response.err .alreadyCheckedIn ∧
    (V1.bulkCheckIn (V1.checkIn (V1.initState 0) 1 10 true).2.1
        [2, 1] 20 true).1 =
      Response.ok [Response.ok ⟨110, 110, 1, 1⟩,
                   Response.err .alreadyCheckedIn] ∧
    V1.getUserTotalCheckins
      (V1.bulkCheckIn (V1.checkIn (V1.initState 0) 1 10 true).2.1
        [2, 1] 20 true).2 2 = 1 := by
  decide

/-- C4 (amended): `bulk-check-in` is not atomic over member eligibility.
For any non-empty batch whose aggregate fee transfer succeeds, the call
returns `ok` of the sequential per-member results and commits the
sequentially accumulated state; an ineligible member only contributes an
embedded `err AlreadyCheckedIn` element and leaves the state of its own
step unchanged, while the mutations of eligible members persist. -/
theorem claim_C4_no_rollback :
    (∀ (s : V1.State) (users : List Nat) (bh : Nat),
        users ≠ [] →
        V1.bulkCheckIn s users bh true =
          (.ok (V1.runInternal bh s users).1,
           (V1.runInternal bh s users).2)) ∧
    (∀ (s : V1.State) (u bh : Nat),
        V1.canCheckin s u bh = false →
        V1.checkInInternal s u bh = (.err .alreadyCheckedIn, s)) := by
  constructor
  · intro s users bh h
    have hl : users.length ≠ 0 := by simpa using h
    simp [V1.bulkCheckIn, hl]
  · intro s u bh h
    exact v1_internal_ineligible s u bh h

/-- Witness for the amended C4 theorem at a concrete input. -/
theorem claim_C4_no_rollback_witness :
    V1.bulkCheckIn (V1.initState 0) [3] 7 true =
      (.ok (V1.runInternal 7 (V1.initState 0) [3]).1,
       (V1.runInternal 7 (V1.initState 0) [3]).2) ∧
    V1.checkInInternal (V1.checkinCommit (V1.initState 0) 3 7).2 3 7 =
      (.err .alreadyCheckedIn, (V1.checkinCommit (V1.initState 0) 3 7).2) := by
  constructor
  · exact claim_C4_no_rollback.1 (V1.initState 0) [3] 7 (by decide)
  · exact claim_C4_no_rollback.2 _ 3 7 (by decide)

/-- C9: the admin setters (V2's `set-points-per-checkin`,
`set-streak-bonus`, `set-fee-amount`, and likewise V1's two setters) fail
with NotAuthorized for any caller other than the owner fixed at
deployment; `set-points-per-checkin` and `set-fee-amount` reject 0 with
InvalidAmount while `set-streak-bonus` accepts 0; every failure leaves
the state (hence the configuration field) unchanged, and success stores
exactly the supplied value. -/
theorem claim_C9_admin_setters :
    (∀ (s : V2.State) (caller v : Nat),
        (caller ≠ s.owner →
          V2.setPointsPerCheckin s caller v = (.err .notAuthorized, s) ∧
          V2.setStreakBonus s caller v = (.err .notAuthorized, s) ∧
          V2.setFeeAmount s caller v = (.err .notAuthorized, s)) ∧
        (caller = s.owner → v = 0 →
          V2.setPointsPerCheckin s caller v = (.err .invalidAmount, s) ∧
          V2.setFeeAmount s caller v = (.err .invalidAmount, s) ∧
          V2.setStreakBonus s caller v =
            (.ok v, { s with streakBonus := v })) ∧
        (caller = s.owner → 0 < v →
          V2.setPointsPerCheckin s caller v =
            (.ok v, { s with pointsPerCheckin := v }) ∧
          V2.setStreakBonus s caller v =
            (.ok v, { s with streakBonus := v }) ∧
          V2.setFeeAmount s caller v =
            (.ok v, { s with feeAmount := v }))) ∧
    (∀ (s : V1.State) (caller v : Nat),
        (caller ≠ s.owner →
          V1.setPointsPerCheckin s caller v = (.err .notAuthorized, s) ∧
          V1.setStreakBonus s caller v = (.err .notAuthorized, s)) ∧
        (caller = s.owner → v = 0 →
          V1.setPointsPerCheckin s caller v = (.err .invalidAmount, s) ∧
          V1.setStreakBonus s caller v =
            (.ok v, { s with streakBonus := v })) ∧
        (caller = s.owner → 0 < v →
          V1.setPointsPerCheckin s caller v =
            (.ok v, { s with pointsPerCheckin := v }) ∧
          V1.setStreakBonus s caller v =
            (.ok v, { s with streakBonus := v }))) := by
  constructor
  · intro s caller v
    refine ⟨?_, ?_, ?_⟩
    · intro h
      simp [V2.setPointsPerCheckin, V2.setStreakBonus, V2.setFeeAmount, h]
    · intro h hv
      subst hv
      simp [V2.setPointsPerCheckin, V2.setStreakBonus, V2.setFeeAmount, h]
    · intro h hv
      simp [V2.setPointsPerCheckin, V2.setStreakBonus, V2.setFeeAmount, h, hv]
  · intro s caller v
    refine ⟨?_, ?_, ?_⟩
    · intro h
      simp [V1.setPointsPerCheckin, V1.setStreakBonus, h]
    · intro h hv
      subst hv
      simp [V1.setPointsPerCheckin, V1.setStreakBonus, h]
    · intro h hv
      simp [V1.setPointsPerCheckin, V1.setStreakBonus, h, hv]

/-- Witness for C9 at concrete inputs: a non-owner is rejected, the owner
setting 0 points is rejected while 0 streak bonus is accepted, and the
owner setting 5000 as the fee succeeds. -/
theorem claim_C9_admin_setters_witness :
    V2.setFeeAmount (V2.initState 0 7) 3 5000 =
      (.err .notAuthorized, V2.initState 0 7) ∧
    V2.setPointsPerCheckin (V2.initState 0 7) 0 0 =
      (.err .invalidAmount, V2.initState 0 7) ∧
    V2.setStreakBonus (V2.initState 0 7) 0 0 =
      (.ok 0, { V2.initState 0 7 with streakBonus := 0 }) ∧
    V2.setFeeAmount (V2.initState 0 7) 0 5000 =
      (.ok 5000, { V2.initState 0 7 with feeAmount := 5000 }) ∧
    V1.setPointsPerCheckin (V1.initState 0) 4 200 =
      (.err .notAuthorized, V1.initState 0) :=
  ⟨((claim_C9_admin_setters.1 (V2.initState 0 7) 3 5000).1 (by decide)).2.2,
   ((claim_C9_admin_setters.1 (V2.initState 0 7) 0 0).2.1 rfl rfl).1,
   ((claim_C9_admin_setters.1 (V2.initState 0 7) 0 0).2.1 rfl rfl).2.2,
   ((claim_C9_admin_setters.1 (V2.initState 0 7) 0 5000).2.2 rfl
      (by decide)).2.2,
   ((claim_C9_admin_setters.2 (V1.initState 0) 4 200).1 (by decide)).1⟩

/-- C10: a single-user `check-in` by `u` — whether it succeeds or fails —
leaves every stored field of any other principal `q` unchanged
(`last-checkin`, points, streak, total check-ins, fee paid).  Stated for
the V2 contract, which has all five per-user fields. -/
theorem claim_C10_frame :
    ∀ (s : V2.State) (u bh : Nat) (feeOk : Bool) (q : Nat),
      q ≠ u →
      V2.getLastCheckin (V2.checkIn s u bh feeOk).2.1 q =
        V2.getLastCheckin s q ∧
      V2.getUserPoints (V2.checkIn s u bh feeOk).2.1 q =
        V2.getUserPoints s q ∧
      V2.getUserStreak (V2.checkIn s u bh feeOk).2.1 q =
        V2.getUserStreak s q ∧
      V2.getUserTotalCheckins (V2.checkIn s u bh feeOk).2.1 q =
        V2.getUserTotalCheckins s q ∧
      V2.getUserFeePaid (V2.checkIn s u bh feeOk).2.1 q =
        V2.getUserFeePaid s q := by
  intro s u bh feeOk q hq
  by_cases hc : V2.canCheckin s u bh = true
  · by_cases hf : feeOk = false
    · simp [V2.checkIn, hc, hf]
    · simp [V2.checkIn, hc, hf, V2.getLastCheckin, V2.getUserPoints,
        V2.getUserStreak, V2.getUserTotalCheckins, V2.getUserFeePaid,
        mapGet_mapSet_ne _ _ _ _ hq]
  · simp [V2.checkIn, eq_false_of_ne_true hc]

/-- Witness for C10 at a concrete input: principal 1 checking in at block
100 leaves principal 2's fields untouched. -/
theorem claim_C10_frame_witness :
    V2.getLastCheckin (V2.checkIn (V2.initState 0 7) 1 100 true).2.1 2 =
      V2.getLastCheckin (V2.initState 0 7) 2 ∧
    V2.getUserPoints (V2.checkIn (V2.initState 0 7) 1 100 true).2.1 2 =
      V2.getUserPoints (V2.initState 0 7) 2 ∧
    V2.getUserStreak (V2.checkIn (V2.initState 0 7) 1 100 true).2.1 2 =
      V2.getUserStreak (V2.initState 0 7) 2 ∧
    V2.getUserTotalCheckins
        (V2.checkIn (V2.initState 0 7) 1 100 true).2.1 2 =
      V2.getUserTotalCheckins (V2.initState 0 7) 2 ∧
    V2.getUserFeePaid (V2.checkIn (V2.initState 0 7) 1 100 true).2.1 2 =
      V2.getUserFeePaid (V2.initState 0 7) 2 :=
  claim_C10_frame (V2.initState 0 7) 1 100 true 2 (by decide)

theorem v1_internal_frame_last (s : V1.State) (u bh q : Nat) (h : q ≠ u) :
    V1.getLastCheckin (V1.checkInInternal s u bh).2 q =
      V1.getLastCheckin s q := by
  by_cases hc : V1.canCheckin s u bh = true
  · simp [V1.checkInInternal, hc, V1.checkinCommit, V1.getLastCheckin,
      mapGet_mapSet_ne _ _ _ _ h]
  · simp [V1.checkInInternal, eq_false_of_ne_true hc]

theorem v1_run_frame_last (bh : Nat) (l : List Nat) (s : V1.State)
    (p : Nat) (h : p ∉ l) :
    V1.getLastCheckin (V1.runInternal bh s l).2 p =
      V1.getLastCheckin s p := by
  induction l generalizing s with
  | nil => simp [V1.runInternal]
  | cons u t ih =>
      have hpu : p ≠ u := fun e => h (by simp [e])
      have hpt : p ∉ t := fun e => h (List.mem_cons_of_mem _ e)
      calc V1.getLastCheckin (V1.runInternal bh s (u :: t)).2 p
          = V1.getLastCheckin
              (V1.runInternal bh (V1.checkInInternal s u bh).2 t).2 p := rfl
        _ = V1.getLastCheckin (V1.checkInInternal s u bh).2 p := ih _ hpt
        _ = V1.getLastCheckin s p := v1_internal_frame_last s u bh p hpu

theorem v1_blocked_at_same_block (s : V1.State) (p bh : Nat)
    (hlast : V1.getLastCheckin s p = bh) (hbh : 1 ≤ bh) :
    V1.canCheckin s p bh = false := by
  simp only [V1.canCheckin, hlast, decide_eq_false_iff_not]
  simp only [BLOCKS_PER_DAY]
  omega

theorem v1_runInternal_append (bh : Nat) (s : V1.State) (l1 l2 : List Nat) :
    V1.runInternal bh s (l1 ++ l2) =
      ((V1.runInternal bh s l1).1 ++
         (V1.runInternal bh (V1.runInternal bh s l1).2 l2).1,
       (V1.runInternal bh (V1.runInternal bh s l1).2 l2).2) := by
  induction l1 generalizing s with
  | nil => simp [V1.runInternal]
  | cons u t ih => simp [V1.runInternal, ih]

/-- C8: in a V1 batch in which principal `p` appears twice with only
otherwise-eligible members in between, processing is sequential: the first
occurrence succeeds, its `last-checkin` write is visible to the second
occurrence (the state before that occurrence records `bh`), and the second
occurrence therefore yields AlreadyCheckedIn. -/
theorem claim_C8_duplicate_in_batch :
    ∀ (s : V1.State) (p : Nat) (ys : List Nat) (bh : Nat),
      V1.canCheckin s p bh = true → 1 ≤ bh → p ∉ ys →
      (V1.bulkCheckIn s (p :: ys ++ [p]) bh true).1 =
        Response.ok
          (Response.ok (V1.checkinCommit s p bh).1 ::
            ((V1.runInternal bh (V1.checkinCommit s p bh).2 ys).1 ++
             [Response.err .alreadyCheckedIn])) ∧
      V1.getLastCheckin
        (V1.runInternal bh (V1.checkinCommit s p bh).2 ys).2 p = bh := by
  intro s p ys bh hcan hbh hnot
  have hvisible :
      V1.getLastCheckin
        (V1.runInternal bh (V1.checkinCommit s p bh).2 ys).2 p = bh := by
    rw [v1_run_frame_last bh ys _ p hnot]
    exact v1_commit_lastCheckin s p bh
  refine ⟨?_, hvisible⟩
  have hlen : (p :: ys ++ [p]).length ≠ 0 := by simp
  have hrun : V1.runInternal bh s (p :: (ys ++ [p])) =
      ((V1.checkInInternal s p bh).1 ::
        (V1.runInternal bh (V1.checkInInternal s p bh).2 (ys ++ [p])).1,
       (V1.runInternal bh (V1.checkInInternal s p bh).2 (ys ++ [p])).2) :=
    rfl
  have hblocked :
      V1.checkInInternal
        (V1.runInternal bh (V1.checkinCommit s p bh).2 ys).2 p bh =
      (.err .alreadyCheckedIn,
       (V1.runInternal bh (V1.checkinCommit s p bh).2 ys).2) :=
    v1_internal_ineligible _ p bh
      (v1_blocked_at_same_block _ p bh hvisible hbh)
  have hbulk : (V1.bulkCheckIn s (p :: ys ++ [p]) bh true).1 =
      Response.ok (V1.runInternal bh s (p :: (ys ++ [p]))).1 := by
    simp [V1.bulkCheckIn]
  rw [hbulk, hrun, v1_internal_eligible s p bh hcan]
  dsimp only
  rw [v1_runInternal_append bh (V1.checkinCommit s p bh).2 ys [p]]
  dsimp only
  simp [V1.runInternal, hblocked]

/-- Witness for C8 at a concrete input: in the batch `[1, 2, 1]` at block
20 from a fresh ledger, the first occurrence of principal 1 succeeds, its
write is visible, and the second occurrence fails inside the batch. -/
theorem claim_C8_duplicate_in_batch_witness :
    (V1.bulkCheckIn (V1.initState 0) (1 :: [2] ++ [1]) 20 true).1 =
      Response.ok
        (Response.ok (V1.checkinCommit (V1.initState 0) 1 20).1 ::
          ((V1.runInternal 20
              (V1.checkinCommit (V1.initState 0) 1 20).2 [2]).1 ++
           [Response.err .alreadyCheckedIn])) ∧
    V1.getLastCheckin
      (V1.runInternal 20
        (V1.checkinCommit (V1.initState 0) 1 20).2 [2]).2 1 = 20 :=
  claim_C8_duplicate_in_batch (V1.initState 0) 1 [2] 20 (by decide)
    (by decide) (by decide)

theorem Inv_initState (o : Nat) : Inv (V1.initState o) := by
  refine ⟨rfl, rfl, ?_, ?_, ?_⟩ <;>
    simp [V1.initState, V1.getLastCheckin, mapGet]

theorem v1_commit_fields (s : V1.State) (u bh : Nat) :
    (V1.checkinCommit s u bh).2.totalCheckins = s.totalCheckins + 1 ∧
    (V1.checkinCommit s u bh).2.uniqueUsers =
      (if V1.getLastCheckin s u = 0
       then s.uniqueUsers + 1 else s.uniqueUsers) ∧
    (V1.checkinCommit s u bh).2.userTotalCheckins =
      mapSet s.userTotalCheckins u (V1.getUserTotalCheckins s u + 1) ∧
    (V1.checkinCommit s u bh).2.lastCheckin =
      mapSet s.lastCheckin u bh := by
  simp [V1.checkinCommit]

theorem Inv_commit (s : V1.State) (u bh : Nat) (hbh : 1 ≤ bh)
    (hInv : Inv s) : Inv (V1.checkinCommit s u bh).2 := by
  obtain ⟨h1, h2, h3, h4, h5⟩ := hInv
  obtain ⟨f1, f2, f3, f4⟩ := v1_commit_fields s u bh
  have hlast : ∀ p, V1.getLastCheckin (V1.checkinCommit s u bh).2 p =
      (mapGet (mapSet s.lastCheckin u bh) p).getD 0 := by
    intro p
    rw [V1.getLastCheckin, f4]
  by_cases hnew : V1.getLastCheckin s u = 0
  · have hnone := (h4 u).mp hnew
    have hcur : V1.getUserTotalCheckins s u = 0 := by
      simp [V1.getUserTotalCheckins, hnone]
    refine ⟨?_, ?_, ?_, ?_, ?_⟩
    · rw [f1, f3, hcur, sumVals_mapSet_none _ _ _ hnone, h1]
    · rw [f2, f3, if_pos hnew, length_mapSet_none _ _ _ hnone, h2]
    · rw [f3]
      intro e he
      rcases mem_mapSet _ _ _ _ he with he1 | he1
      · rw [he1]
        simp
      · exact h3 e he1
    · intro p
      by_cases hp : p = u
      · subst hp
        rw [hlast, f3]
        simp [mapGet_mapSet_self]
        omega
      · rw [hlast, f3, mapGet_mapSet_ne _ _ _ _ hp,
          mapGet_mapSet_ne _ _ _ _ hp]
        exact h4 p
    · rw [f3]
      exact nodup_keys_mapSet _ _ _ h5
  · have hsome : ∃ w, mapGet s.userTotalCheckins u = some w := by
      rcases hmm : mapGet s.userTotalCheckins u with _ | w
      · exact absurd ((h4 u).mpr hmm) hnew
      · exact ⟨w, rfl⟩
    obtain ⟨w, hw⟩ := hsome
    have hcur : V1.getUserTotalCheckins s u = w := by
      simp [V1.getUserTotalCheckins, hw]
    refine ⟨?_, ?_, ?_, ?_, ?_⟩
    · rw [f1, f3, hcur]
      have := sumVals_mapSet_some s.userTotalCheckins u (w + 1) w hw
      omega
    · rw [f2, f3, if_neg hnew, length_mapSet_some _ _ _ _ hw, h2]
    · rw [f3]
      intro e he
      rcases mem_mapSet _ _ _ _ he with he1 | he1
      · rw [he1]
        simp
      · exact h3 e he1
    · intro p
      by_cases hp : p = u
      · subst hp
        rw [hlast, f3]
        simp [mapGet_mapSet_self]
        omega
      · rw [hlast, f3, mapGet_mapSet_ne _ _ _ _ hp,
          mapGet_mapSet_ne _ _ _ _ hp]
        exact h4 p
    · rw [f3]
      exact nodup_keys_mapSet _ _ _ h5

theorem Inv_checkIn (s : V1.State) (u bh : Nat) (f : Bool)
    (hbh : 1 ≤ bh) (hInv : Inv s) : Inv (V1.checkIn s u bh f).2.1 := by
  by_cases hc : V1.canCheckin s u bh = true
  · by_cases hf : f = false
    · simpa [V1.checkIn, hc, hf] using hInv
    · simpa [V1.checkIn, hc, hf] using Inv_commit s u bh hbh hInv
  · simpa [V1.checkIn, eq_false_of_ne_true hc] using hInv

theorem Inv_checkInInternal (s : V1.State) (u bh : Nat)
    (hbh : 1 ≤ bh) (hInv : Inv s) : Inv (V1.checkInInternal s u bh).2 := by
  by_cases hc : V1.canCheckin s u bh = true
  · simpa [V1.checkInInternal, hc] using Inv_commit s u bh hbh hInv
  · simpa [V1.checkInInternal, eq_false_of_ne_true hc] using hInv

theorem Inv_runInternal (bh : Nat) (l : List Nat) (s : V1.State)
    (hbh : 1 ≤ bh) (hInv : Inv s) : Inv (V1.runInternal bh s l).2 := by
  induction l generalizing s with
  | nil => simpa [V1.runInternal] using hInv
  | cons u t ih =>
      exact ih _ (Inv_checkInInternal s u bh hbh hInv)

theorem Inv_bulkCheckIn (s : V1.State) (users : List Nat) (bh : Nat)
    (f : Bool) (hbh : 1 ≤ bh) (hInv : Inv s) :
    Inv (V1.bulkCheckIn s users bh f).2 := by
  by_cases hl : users.length = 0
  · simpa [V1.bulkCheckIn, hl] using hInv
  · by_cases hf : f = false
    · simpa [V1.bulkCheckIn, hl, hf] using hInv
    · simpa [V1.bulkCheckIn, hl, hf] using
        Inv_runInternal bh users s hbh hInv

theorem Inv_setPointsPerCheckin (s : V1.State) (c v : Nat)
    (hInv : Inv s) : Inv (V1.setPointsPerCheckin s c v).2 := by
  rw [V1.setPointsPerCheckin]
  split_ifs <;> simpa [Inv, V1.getLastCheckin] using hInv

theorem Inv_setStreakBonus (s : V1.State) (c v : Nat)
    (hInv : Inv s) : Inv (V1.setStreakBonus s c v).2 := by
  rw [V1.setStreakBonus]
  split_ifs <;> simpa [Inv, V1.getLastCheckin] using hInv

theorem Inv_applyOp (s : V1.State) (op : Op) (ht : 1 ≤ opTick op)
    (hInv : Inv s) : Inv (applyOp s op) := by
  cases op with
  | checkin u bh f => exact Inv_checkIn s u bh f ht hInv
  | bulk us bh f => exact Inv_bulkCheckIn s us bh f ht hInv
  | setPoints c v => exact Inv_setPointsPerCheckin s c v hInv
  | setBonus c v => exact Inv_setStreakBonus s c v hInv

theorem Inv_runOps (ops : List Op) (s : V1.State)
    (h : ∀ op ∈ ops, 1 ≤ opTick op) (hInv : Inv s) :
    Inv (runOps s ops) := by
  induction ops generalizing s with
  | nil => simpa [runOps] using hInv
  | cons op t ih =>
      exact ih _ (fun o ho => h o (List.mem_cons_of_mem _ ho))
        (Inv_applyOp s op (h op (List.mem_cons_self _ _)) hInv)

/-- C7: after any sequence of top-level V1 calls (single check-ins, bulk
check-ins, admin setters) from the deployed state, all at block heights
at least 1, the global `total-checkins` equals the sum of all per-user
`total-checkins`, the tracked principals are distinct, and `unique-users`
equals the number of distinct principals with at least one check-in. -/
theorem claim_C7_aggregate_consistency :
    ∀ (owner : Nat) (ops : List Op),
      (∀ op ∈ ops, 1 ≤ opTick op) →
      (runOps (V1.initState owner) ops).totalCheckins =
        sumVals (runOps (V1.initState owner) ops).userTotalCheckins ∧
      ((runOps (V1.initState owner) ops).userTotalCheckins.map
        Prod.fst).Nodup ∧
      (runOps (V1.initState owner) ops).uniqueUsers =
        ((runOps (V1.initState owner) ops).userTotalCheckins.filter
          (fun e => decide (1 ≤ e.2))).length := by
  intro owner ops h
  obtain ⟨h1, h2, h3, h4, h5⟩ := Inv_runOps ops (V1.initState owner) h
    (Inv_initState owner)
  refine ⟨h1, h5, ?_⟩
  rw [List.filter_eq_self.mpr (fun e he => by simpa using h3 e he)]
  exact h2

/-- Witness for C7 on a concrete run: one single check-in, a bulk batch
with a duplicate, a config change, a failed check-in, and an unauthorized
config change. -/
theorem claim_C7_aggregate_consistency_witness :
    (runOps (V1.initState 0) demoOps).totalCheckins =
      sumVals (runOps (V1.initState 0) demoOps).userTotalCheckins ∧
    ((runOps (V1.initState 0) demoOps).userTotalCheckins.map
      Prod.fst).Nodup ∧
    (runOps (V1.initState 0) demoOps).uniqueUsers =
      ((runOps (V1.initState 0) demoOps).userTotalCheckins.filter
        (fun e => decide (1 ≤ e.2))).length :=
  claim_C7_aggregate_consistency 0 demoOps (by decide)

end DailyCheckin
